import Mathlib

set_option maxRecDepth 100000

/-!
Verification of the domain-base-hunter backend (src/server/index.js).

This file gives a shallow embedding of the pure core of the server:
string normalisation helpers, the table-metadata column-role resolver,
the criteria-to-WHERE-fragment compiler of the search route, the
pagination arithmetic, the domain-check TTL cache, the Spamhaus
credential manager, the retrying fetch helper, and the Wayback CDX
count parsing.  JavaScript numbers are modelled as `JsNum` (a rational
or the non-finite marker), JS strings as Lean `String`, and the
`Number(...)` coercion of free-form strings as an explicit oracle
argument where the source applies it to client-supplied text.
-/

namespace DomainHunter

/-! ## String helpers (JS semantics on `List Char`) -/

/-- Characters removed by the JavaScript `String.trim` (whitespace). -/
def jsTrimChars (l : List Char) : List Char :=
  ((l.dropWhile Char.isWhitespace).reverse.dropWhile Char.isWhitespace).reverse

/-- JavaScript `s.trim()`. -/
def jsTrim (s : String) : String := ⟨jsTrimChars s.data⟩

/-- JavaScript `s.toLowerCase()` (ASCII case folding suffices here). -/
def lowerStr (s : String) : String := ⟨s.data.map Char.toLower⟩

/-- Substring occurrence test on character lists. -/
def hasInfixChars (pat : List Char) : List Char → Bool
  | [] => pat.isEmpty
  | c :: rest => pat.isPrefixOf (c :: rest) || hasInfixChars pat rest

/-- `t` occurs as a substring of `s` (models a `/t/` regex test). -/
def strContainsSub (s t : String) : Bool := hasInfixChars t.data s.data

/-- One of the given literals occurs in `s` (models an alternation regex). -/
def containsAny (subs : List String) (s : String) : Bool :=
  subs.any (fun t => strContainsSub s t)

/-- `normalizeString` of the source: trim, and return null for empty. -/
def normalizeString (v : Option String) : Option String :=
  match v with
  | none => none
  | some s => let t := jsTrim s; if t = "" then none else some t

/-- Split a character list at every character satisfying `p`. -/
def splitAux (p : Char → Bool) : List Char → List Char → List (List Char)
  | [], acc => [acc.reverse]
  | c :: cs, acc =>
    if p c then acc.reverse :: splitAux p cs [] else splitAux p cs (c :: acc)

/-- A character the `/[,\s]+/` separator regex of `splitList` matches. -/
def isSplitChar (c : Char) : Bool := c == ',' || c.isWhitespace

/-- `splitList` of the source: split on commas/whitespace, trim, drop empties. -/
def splitList (v : Option String) : List String :=
  match normalizeString v with
  | none => []
  | some s =>
    (((splitAux isSplitChar s.data []).map (fun l => jsTrim ⟨l⟩))).filter (· ≠ "")

/-- Double every internal double quote (body of `quoteIdent`). -/
def escQuote : List Char → List Char
  | [] => []
  | c :: cs => if c == '"' then '"' :: '"' :: escQuote cs else c :: escQuote cs

/-- `quoteIdent` of the source: wrap in double quotes, escaping internal ones. -/
def quoteIdent (id : String) : String := ⟨'"' :: (escQuote id.data ++ ['"'])⟩

/-! ## JavaScript numbers and `clampInt` -/

/-- A JavaScript number: a finite rational, or the non-finite marker
(`NaN` and the infinities, which `Number.isFinite` rejects alike). -/
inductive JsNum where
  | nan
  | num (q : ℚ)
deriving DecidableEq

/-- JavaScript `Math.trunc`: round toward zero (`Int.div` truncates
toward zero, so on the reduced fraction it is exactly `Math.trunc`). -/
def jsTrunc (q : ℚ) : ℤ := q.num.tdiv q.den

/-- `clampInt(v, min, max, fallback)` of the source. -/
def clampInt (v : JsNum) (lo hi fb : ℤ) : ℤ :=
  match v with
  | .nan => fb
  | .num q => min hi (max lo (jsTrunc q))

/-! ## Table metadata and the column-role resolver -/

/-- One row of the `information_schema.columns` catalog query. -/
structure ColumnInfo where
  column_name : String
  data_type : String
  udt_name : String
deriving DecidableEq

/-- The cached table metadata (`getDomainsTableMeta` result). -/
structure TableMeta where
  schemaName : String
  tableName : String
  columns : List ColumnInfo
deriving DecidableEq

/-- The `byName` map lookup: the last column whose lowercased name is `key`
(the source builds a JS `Map` in which later entries overwrite earlier). -/
def byNameGet (meta : TableMeta) (key : String) : Option ColumnInfo :=
  (meta.columns.filter (fun c => lowerStr c.column_name == key)).getLast?

/-- `has(name)` of the search route: the catalog holds the name (lowercased). -/
def hasCol (meta : TableMeta) (name : String) : Bool :=
  (byNameGet meta (lowerStr name)).isSome

/-- `findFirstColumn`: the first candidate present in the catalog. -/
def findFirstColumn (meta : TableMeta) : List String → Option String
  | [] => none
  | n :: rest =>
    match byNameGet meta (lowerStr n) with
    | some c => some c.column_name
    | none => findFirstColumn meta rest

/-- `findColumnsLike`: the columns whose lowercased name the regex matches. -/
def findColumnsLike (meta : TableMeta) (p : String → Bool) : List String :=
  (meta.columns.map (·.column_name)).filter (fun n => p (lowerStr n))

/-- JavaScript `a || b` on string-or-null values (empty string is falsy). -/
def jsOr (a b : Option String) : Option String :=
  match a with
  | some s => if s = "" then b else some s
  | none => b

/-- `pick(cands, fallbackRe)` of the search route. -/
def pick (meta : TableMeta) (cands : List String) (re : Option (String → Bool)) :
    Option String :=
  jsOr (findFirstColumn meta cands)
    (match re with
     | some p => jsOr (findColumnsLike meta p).head? none
     | none => none)

/-- The `/domain/` fallback regex. -/
def reDomain : String → Bool := fun s => strContainsSub s "domain"

/-- The `/(creation|created|registered|registration)/` fallback regex. -/
def reCreated : String → Bool :=
  containsAny ["creation", "created", "registered", "registration"]

/-- The `/(expiration|expire|expires|expiry)/` fallback regex. -/
def reExpires : String → Bool :=
  containsAny ["expiration", "expire", "expires", "expiry"]

/-- The `/(drop|delete|deletion)/` fallback regex. -/
def reSchedDel : String → Bool := containsAny ["drop", "delete", "deletion"]

/-- The `/(wayback|archive)/` fallback regex. -/
def reWayback : String → Bool := containsAny ["wayback", "archive"]

/-- The `/(spamhaus|spamhouse)/` fallback regex. -/
def reSpamhaus : String → Bool := containsAny ["spamhaus", "spamhouse"]

/-- The `/(viewstotal|views_total)/` fallback regex. -/
def reViewsTotal : String → Bool := containsAny ["viewstotal", "views_total"]

/-- The domain column of the search route. -/
def domainColumnOf (meta : TableMeta) : Option String :=
  pick meta ["domain", "hostname", "host", "name"] (some reDomain)

/-- The TLD column of the search route (no regex fallback). -/
def tldColumnOf (meta : TableMeta) : Option String :=
  pick meta ["tld", "zone", "tld_suffix"] none

/-- The creation-date column of the search route. -/
def createdColumnOf (meta : TableMeta) : Option String :=
  pick meta
    ["domain_creation_date", "creation_date", "created_at", "registered_at",
     "registration_date"] (some reCreated)

/-- The expiration-date column of the search route. -/
def expiresColumnOf (meta : TableMeta) : Option String :=
  pick meta
    ["domain_expiration_date", "expiration_date", "expires_at", "expires_on",
     "expiry_date", "expire_date"] (some reExpires)

/-- The scheduled-delete column of the search route. -/
def scheduledDeleteColumnOf (meta : TableMeta) : Option String :=
  pick meta
    ["drop_date", "delete_date", "deletion_date", "pending_delete_date",
     "scheduled_delete_date"] (some reSchedDel)

/-- The deleted-at column of the search route (exact names only). -/
def deletedAtColumnOf (meta : TableMeta) : Option String :=
  pick meta ["deleted_at", "dropped_at", "removed_at"] none

/-- The deleted-flag column of the search route (exact names only). -/
def deletedFlagColumnOf (meta : TableMeta) : Option String :=
  pick meta ["is_deleted", "deleted", "is_dropped", "dropped", "is_removed",
    "removed"] none

/-- The status column of the search route (exact names only). -/
def statusColumnOf (meta : TableMeta) : Option String :=
  pick meta ["status", "domain_status", "state", "domain_state", "lifecycle"] none

/-- The wayback counter column of the search route. -/
def waybackColumnOf (meta : TableMeta) : Option String :=
  jsOr (findFirstColumn meta ["wayback_snapshots", "wayback_total", "wayback_count"])
    (jsOr (findColumnsLike meta reWayback).head? none)

/-- The spamhaus column of the search route. -/
def spamhausColumnOf (meta : TableMeta) : Option String :=
  jsOr (findFirstColumn meta
      ["spamhaus_listed", "spamhouse_listed", "spamhaus", "spamhouse"])
    (jsOr (findColumnsLike meta reSpamhaus).head? none)

/-- The views-total column of the search route. -/
def viewsTotalColumnOf (meta : TableMeta) : Option String :=
  jsOr (findFirstColumn meta
      ["views_total_listed", "viewstotal_listed", "views_total", "viewstotal"])
    (jsOr (findColumnsLike meta reViewsTotal).head? none)

/-! ## The criteria-to-WHERE compiler of `POST /api/domains/search` -/

/-- A bound SQL parameter value.  `numOfStr s` stands for the JavaScript
`Number(s)` coercion the source applies to a few free-form fields. -/
inductive SqlParam where
  | str (s : String)
  | strList (l : List String)
  | int (n : ℤ)
  | num (v : JsNum)
deriving DecidableEq

/-- The mutable `where` / `values` pair of the search route. -/
structure WhereState where
  whereFrags : List String := []
  values : List SqlParam := []
deriving DecidableEq

/-- The `add(fragment, ...vals)` helper: push a fragment and its values. -/
def addFrag (st : WhereState) (frag : String) (ps : List SqlParam) : WhereState :=
  { whereFrags := st.whereFrags ++ [frag], values := st.values ++ ps }

/-- A positional placeholder (the source writes `$${values.length + 1}`). -/
def ph (n : ℕ) : String := "$" ++ toString n

/-- The client-supplied search criteria.  String fields are the raw JSON
values (absent = `none`); `expiringWithinDays` is modelled after the
`Number(...)` coercion the source applies to it, and the fields the
source feeds to `Number(...)` as normalised strings keep their string
form (the coercion is the `jsNumber` oracle of `buildWhere`). -/
structure Criteria where
  domainStartsWith : Option String := none
  domainEndsWith : Option String := none
  tld : Option String := none
  lifecycleState : Option String := none
  expiredState : Option String := none
  expiringWithinDays : JsNum := .nan
  creationDateFrom : Option String := none
  creationDateTo : Option String := none
  ageYearsFrom : Option String := none
  ageYearsTo : Option String := none
  countryByIp : Option String := none
  registrarContains : Option String := none
  technologiesContains : Option String := none
  responseStatusContains : Option String := none
  detectedHostsMin : Option String := none
  detectedHostsMax : Option String := none
  expirationFrom : Option String := none
  expirationTo : Option String := none
  waybackMinSnapshots : Option String := none
  safeSpamhausOnly : Bool := false
  safeViewsTotalOnly : Bool := false

/-- `domainStartsWith`: `"dom" ILIKE $n` with parameter `s%`. -/
def stepStartsWith (dom : String) (c : Criteria) (st : WhereState) : WhereState :=
  match normalizeString c.domainStartsWith with
  | some s =>
    addFrag st (quoteIdent dom ++ " ILIKE " ++ ph (st.values.length + 1))
      [.str (s ++ "%")]
  | none => st

/-- `domainEndsWith`: `"dom" ILIKE $n` with parameter `%s`. -/
def stepEndsWith (dom : String) (c : Criteria) (st : WhereState) : WhereState :=
  match normalizeString c.domainEndsWith with
  | some s =>
    addFrag st (quoteIdent dom ++ " ILIKE " ++ ph (st.values.length + 1))
      [.str ("%" ++ s)]
  | none => st

/-- TLD term normalisation of the fallback branch: trim, strip one
leading dot, lowercase, and prepend `%.`. -/
def normTldPattern (t : String) : String :=
  let x := jsTrim t
  let x := match x.data with
    | '.' :: rest => (⟨rest⟩ : String)
    | _ => x
  "%." ++ lowerStr x

/-- The TLD filter: exact `= ANY` on a TLD column when one exists (raw
terms), else a lowercased suffix `LIKE ANY` on the domain column. -/
def stepTld (tldCol : Option String) (dom : String) (c : Criteria) (st : WhereState) :
    WhereState :=
  let tlds := splitList c.tld
  if tlds.isEmpty then st
  else
    match tldCol with
    | some t =>
      addFrag st
        (quoteIdent t ++ " = ANY(" ++ ph (st.values.length + 1) ++ "::text[])")
        [.strList tlds]
    | none =>
      addFrag st
        ("LOWER(" ++ quoteIdent dom ++ ") LIKE ANY(" ++ ph (st.values.length + 1)
          ++ "::text[])")
        [.strList (tlds.map normTldPattern)]

/-- The status-pattern deleted fragment of the lifecycle block. -/
def statusDeletedFrag (statusCol : String) (n : ℕ) : String :=
  quoteIdent statusCol ++ "::text ILIKE ANY(" ++ ph n ++ "::text[])"

/-- The timestamp range fragment used for the `expiring` state. -/
def tsRangeFrag (col : String) (n : ℕ) : String :=
  "NULLIF(" ++ quoteIdent col ++ "::text, '')::timestamp >= NOW() AND NULLIF("
    ++ quoteIdent col ++ "::text, '')::timestamp < (NOW() + (" ++ ph n
    ++ "::int || ' days')::interval)"

/-- The lifecycle block of the search route (`active | expiring | deleted`).
Mirrors the source exactly, including the unconditional push of the
status-pattern fragment the moment it is derived. -/
def lifecycleStep (meta : TableMeta)
    (statusCol deletedFlagCol deletedAtCol expiresCol schedDelCol : Option String)
    (c : Criteria) (st : WhereState) : WhereState :=
  match normalizeString
      (match c.lifecycleState with
       | some v => some v
       | none => c.expiredState) with
  | none => st
  | some lraw =>
    let lifecycle := lowerStr lraw
    let days : ℤ :=
      match c.expiringWithinDays with
      | .num q => max 1 (jsTrunc q)
      | .nan => 30
    let deletedClauses : List String :=
      (match deletedFlagCol with
       | some f =>
         if (byNameGet meta (lowerStr f)).map (·.data_type) = some "boolean" then
           [quoteIdent f ++ " IS TRUE"]
         else
           ["COALESCE(NULLIF(" ++ quoteIdent f ++ "::text, ''), '0')::int > 0"]
       | none => []) ++
      (match deletedAtCol with
       | some a => ["NULLIF(" ++ quoteIdent a ++ "::text, '') IS NOT NULL"]
       | none => [])
    let fragAndSt : Option String × WhereState :=
      if deletedClauses.isEmpty then
        match statusCol with
        | some sc =>
          let frag := statusDeletedFrag sc (st.values.length + 1)
          (some frag,
           addFrag st frag [.strList ["%deleted%", "%dropped%", "%removed%"]])
        | none => (none, st)
      else (none, st)
    let deletedStatusFragment := fragAndSt.1
    let st := fragAndSt.2
    let deletedFragment : Option String :=
      if deletedClauses.isEmpty then deletedStatusFragment
      else some ("(" ++ String.intercalate " OR " deletedClauses ++ ")")
    let notDeletedFragment : Option String :=
      deletedFragment.map (fun f => "NOT (" ++ f ++ ")")
    if lifecycle = "deleted" then
      match deletedFragment with
      | some f => addFrag st f []
      | none => st
    else if lifecycle = "expiring" then
      let st := match notDeletedFragment with
        | some f => addFrag st f []
        | none => st
      match schedDelCol with
      | some sd => addFrag st (tsRangeFrag sd (st.values.length + 1)) [.int days]
      | none =>
        match expiresCol with
        | some e => addFrag st (tsRangeFrag e (st.values.length + 1)) [.int days]
        | none =>
          match statusCol with
          | some sc =>
            addFrag st (statusDeletedFrag sc (st.values.length + 1))
              [.strList ["%expir%", "%pending%", "%to_delete%"]]
          | none => st
    else if lifecycle = "active" then
      let st := match notDeletedFragment with
        | some f => addFrag st f []
        | none => st
      let st := match expiresCol with
        | some e =>
          addFrag st
            ("NULLIF(" ++ quoteIdent e ++ "::text, '')::timestamp >= NOW()") []
        | none => st
      match statusCol with
      | some sc =>
        addFrag st (statusDeletedFrag sc (st.values.length + 1))
          [.strList ["active", "ok", "registered", "%active%"]]
      | none => st
    else st

/-- `creationDateFrom`: only when the creation-date column exists. -/
def stepCreationFrom (createdCol : Option String) (c : Criteria) (st : WhereState) :
    WhereState :=
  match normalizeString c.creationDateFrom, createdCol with
  | some v, some col =>
    addFrag st
      ("NULLIF(" ++ quoteIdent col ++ "::text, '')::date >= "
        ++ ph (st.values.length + 1)) [.str v]
  | _, _ => st

/-- `creationDateTo`: only when the creation-date column exists. -/
def stepCreationTo (createdCol : Option String) (c : Criteria) (st : WhereState) :
    WhereState :=
  match normalizeString c.creationDateTo, createdCol with
  | some v, some col =>
    addFrag st
      ("NULLIF(" ++ quoteIdent col ++ "::text, '')::date <= "
        ++ ph (st.values.length + 1)) [.str v]
  | _, _ => st

/-- The age-in-years block: clamp both bounds at 0, swap when inverted,
then emit up to two absolute-date comparisons. -/
def stepAge (jsNumber : String → JsNum) (createdCol : Option String) (c : Criteria)
    (st : WhereState) : WhereState :=
  match createdCol with
  | none => st
  | some col =>
    let fin : Option String → Option ℤ := fun o =>
      match (normalizeString o).map jsNumber with
      | some (.num q) => some (max 0 (jsTrunc q))
      | _ => none
    let minMax : Option ℤ × Option ℤ :=
      match fin c.ageYearsFrom, fin c.ageYearsTo with
      | some a, some b => if a > b then (some b, some a) else (some a, some b)
      | x, y => (x, y)
    match fin c.ageYearsFrom, fin c.ageYearsTo with
    | none, none => st
    | _, _ =>
      let st := match minMax.1 with
        | some m =>
          addFrag st
            ("NULLIF(" ++ quoteIdent col ++ "::text, '')::date <= (CURRENT_DATE - ("
              ++ ph (st.values.length + 1) ++ "::int || ' years')::interval)")
            [.int m]
        | none => st
      match minMax.2 with
      | some m =>
        addFrag st
          ("NULLIF(" ++ quoteIdent col ++ "::text, '')::date >= (CURRENT_DATE - ("
            ++ ph (st.values.length + 1) ++ "::int || ' years')::interval)")
          [.int m]
      | none => st

/-- `countryByIp`: exact-name-only column `country_by_ip`. -/
def stepCountry (meta : TableMeta) (c : Criteria) (st : WhereState) : WhereState :=
  match normalizeString c.countryByIp with
  | some v =>
    if hasCol meta "country_by_ip" then
      addFrag st ("country_by_ip = " ++ ph (st.values.length + 1)) [.str v]
    else st
  | none => st

/-- `registrarContains`: exact-name-only column `registrar`. -/
def stepRegistrar (meta : TableMeta) (c : Criteria) (st : WhereState) : WhereState :=
  match normalizeString c.registrarContains with
  | some v =>
    if hasCol meta "registrar" then
      addFrag st ("registrar ILIKE " ++ ph (st.values.length + 1))
        [.str ("%" ++ v ++ "%")]
    else st
  | none => st

/-- `technologiesContains`: exact-name-only column `technologies`. -/
def stepTechnologies (meta : TableMeta) (c : Criteria) (st : WhereState) :
    WhereState :=
  match normalizeString c.technologiesContains with
  | some v =>
    if hasCol meta "technologies" then
      addFrag st ("technologies ILIKE " ++ ph (st.values.length + 1))
        [.str ("%" ++ v ++ "%")]
    else st
  | none => st

/-- `responseStatusContains`: exact-name-only column `response_status`. -/
def stepResponseStatus (meta : TableMeta) (c : Criteria) (st : WhereState) :
    WhereState :=
  match normalizeString c.responseStatusContains with
  | some v =>
    if hasCol meta "response_status" then
      addFrag st ("response_status ILIKE " ++ ph (st.values.length + 1))
        [.str ("%" ++ v ++ "%")]
    else st
  | none => st

/-- `detectedHostsMin`: exact-name-only column `detected_hosts`. -/
def stepDetectedMin (jsNumber : String → JsNum) (meta : TableMeta) (c : Criteria)
    (st : WhereState) : WhereState :=
  match normalizeString c.detectedHostsMin with
  | some v =>
    if hasCol meta "detected_hosts" then
      addFrag st ("NULLIF(detected_hosts, '')::int >= " ++ ph (st.values.length + 1))
        [.num (jsNumber v)]
    else st
  | none => st

/-- `detectedHostsMax`: exact-name-only column `detected_hosts`. -/
def stepDetectedMax (jsNumber : String → JsNum) (meta : TableMeta) (c : Criteria)
    (st : WhereState) : WhereState :=
  match normalizeString c.detectedHostsMax with
  | some v =>
    if hasCol meta "detected_hosts" then
      addFrag st ("NULLIF(detected_hosts, '')::int <= " ++ ph (st.values.length + 1))
        [.num (jsNumber v)]
    else st
  | none => st

/-- `expirationFrom`: only when the expiration-date column exists. -/
def stepExpirationFrom (expiresCol : Option String) (c : Criteria) (st : WhereState) :
    WhereState :=
  match normalizeString c.expirationFrom, expiresCol with
  | some v, some col =>
    addFrag st
      ("NULLIF(" ++ quoteIdent col ++ "::text, '')::timestamp >= "
        ++ ph (st.values.length + 1)) [.str v]
  | _, _ => st

/-- `expirationTo`: only when the expiration-date column exists. -/
def stepExpirationTo (expiresCol : Option String) (c : Criteria) (st : WhereState) :
    WhereState :=
  match normalizeString c.expirationTo, expiresCol with
  | some v, some col =>
    addFrag st
      ("NULLIF(" ++ quoteIdent col ++ "::text, '')::timestamp <= "
        ++ ph (st.values.length + 1)) [.str v]
  | _, _ => st

/-- `waybackMinSnapshots`: only when a wayback counter column exists. -/
def stepWayback (jsNumber : String → JsNum) (waybackCol : Option String) (c : Criteria)
    (st : WhereState) : WhereState :=
  match normalizeString c.waybackMinSnapshots, waybackCol with
  | some v, some col =>
    addFrag st
      ("COALESCE(NULLIF(" ++ quoteIdent col ++ "::text, ''), '0')::int >= "
        ++ ph (st.values.length + 1)) [.num (jsNumber v)]
  | _, _ => st

/-- `safeSpamhausOnly`: not-true for boolean columns, coerced ≤ 0 otherwise. -/
def stepSafeSpamhaus (meta : TableMeta) (spamhausCol : Option String) (c : Criteria)
    (st : WhereState) : WhereState :=
  if c.safeSpamhausOnly then
    match spamhausCol with
    | some col =>
      if (byNameGet meta (lowerStr col)).map (·.data_type) = some "boolean" then
        addFrag st (quoteIdent col ++ " IS NOT TRUE") []
      else
        addFrag st
          ("COALESCE(NULLIF(" ++ quoteIdent col ++ "::text, ''), '0')::int <= 0") []
    | none => st
  else st

/-- `safeViewsTotalOnly`: not-true for boolean columns, coerced ≤ 0 otherwise. -/
def stepSafeViewsTotal (meta : TableMeta) (viewsTotalCol : Option String) (c : Criteria)
    (st : WhereState) : WhereState :=
  if c.safeViewsTotalOnly then
    match viewsTotalCol with
    | some col =>
      if (byNameGet meta (lowerStr col)).map (·.data_type) = some "boolean" then
        addFrag st (quoteIdent col ++ " IS NOT TRUE") []
      else
        addFrag st
          ("COALESCE(NULLIF(" ++ quoteIdent col ++ "::text, ''), '0')::int <= 0") []
    | none => st
  else st

/-- The full WHERE-fragment builder of the search route, in source order,
once a domain column has been resolved. -/
def buildWhere (jsNumber : String → JsNum) (meta : TableMeta) (dom : String)
    (c : Criteria) : WhereState :=
  let st : WhereState := {}
  let st := stepStartsWith dom c st
  let st := stepEndsWith dom c st
  let st := stepTld (tldColumnOf meta) dom c st
  let st := lifecycleStep meta (statusColumnOf meta) (deletedFlagColumnOf meta)
    (deletedAtColumnOf meta) (expiresColumnOf meta) (scheduledDeleteColumnOf meta) c st
  let st := stepCreationFrom (createdColumnOf meta) c st
  let st := stepCreationTo (createdColumnOf meta) c st
  let st := stepAge jsNumber (createdColumnOf meta) c st
  let st := stepCountry meta c st
  let st := stepRegistrar meta c st
  let st := stepTechnologies meta c st
  let st := stepResponseStatus meta c st
  let st := stepDetectedMin jsNumber meta c st
  let st := stepDetectedMax jsNumber meta c st
  let st := stepExpirationFrom (expiresColumnOf meta) c st
  let st := stepExpirationTo (expiresColumnOf meta) c st
  let st := stepWayback jsNumber (waybackColumnOf meta) c st
  let st := stepSafeSpamhaus meta (spamhausColumnOf meta) c st
  let st := stepSafeViewsTotal meta (viewsTotalColumnOf meta) c st
  st

/-- The search route up to fragment compilation: a missing domain column
is the one schema condition that fails the request (HTTP 500). -/
def searchCompile (jsNumber : String → JsNum) (meta : TableMeta) (c : Criteria) :
    Except String WhereState :=
  match domainColumnOf meta with
  | none =>
    .error ("No domain column found in table " ++ meta.schemaName ++ "."
      ++ meta.tableName)
  | some dom => .ok (buildWhere jsNumber meta dom c)

/-! ## Pagination of the search route -/

/-- The pagination figures the search route computes and returns. -/
structure PageInfo where
  page : ℤ
  pageSize : ℤ
  offset : ℤ
  totalPages : ℕ
deriving DecidableEq

/-- Clamp the client page/pageSize, compute the offset, and the
`totalPages = max(1, ceil(total / pageSize))` of the response. -/
def paginate (bodyPage bodyPageSize : JsNum) (total : ℕ) : PageInfo :=
  let pageSize := clampInt bodyPageSize 1 500 50
  let page := clampInt bodyPage 1 1000000000 1
  { page := page
    pageSize := pageSize
    offset := (page - 1) * pageSize
    totalPages := max 1 ((total + pageSize.toNat - 1) / pageSize.toNat) }

/-! ## Domain normalisation (`normalizeDomain`) -/

/-- Strip a leading `http://` or `https://` (case-insensitive). -/
def stripProtocol (l : List Char) : List Char :=
  if "https://".data.isPrefixOf (l.map Char.toLower) then l.drop 8
  else if "http://".data.isPrefixOf (l.map Char.toLower) then l.drop 7
  else l

/-- `x.split(c)[0]`: the characters before the first occurrence of `c`. -/
def takeUntilChar (c : Char) (l : List Char) : List Char := l.takeWhile (· ≠ c)

/-- A character of the `^[a-z0-9.-]+$` validation class. -/
def isDomainChar (c : Char) : Bool :=
  (decide ('a' ≤ c) && decide (c ≤ 'z'))
    || (decide ('0' ≤ c) && decide (c ≤ '9')) || c == '.' || c == '-'

/-- `normalizeDomain` of the source: strip scheme, path/query/hash, port;
trim dots; lowercase; validate the character class and require a dot. -/
def normalizeDomain (input : Option String) : Option String :=
  match normalizeString input with
  | none => none
  | some s =>
    let x := jsTrimChars s.data
    let x := stripProtocol x
    let x := takeUntilChar '/' x
    let x := takeUntilChar '?' x
    let x := takeUntilChar '#' x
    let x := takeUntilChar ':' x
    let x := x.dropWhile (· == '.')
    let x := (x.reverse.dropWhile (· == '.')).reverse
    let x := x.map Char.toLower
    if x ≠ [] ∧ x.all isDomainChar ∧ x.contains '.' then some ⟨x⟩ else none

/-! ## The domain-check route and its TTL cache -/

/-- The possible CDX snapshot display: absent, a number, or `10000+`. -/
inductive SnapCount where
  | noCount
  | count (n : ℕ)
  | capped
deriving DecidableEq

/-- The Spamhaus branch result (`checkSpamhaus` return shape). -/
structure SpamhausResult where
  supported : Bool
  listed : Option Bool := none
  raw : Option String := none
  error : Option String := none
deriving DecidableEq

/-- The Wayback branch result (`checkWayback` return shape). -/
structure WaybackResult where
  supported : Bool := true
  hasSnapshots : Bool := false
  snapshots : SnapCount := .noCount
  lastSnapshot : Option String := none
  link : String := ""
  error : Option String := none
deriving DecidableEq

/-- The merged `{spamhaus, wayback}` value of the check route. -/
structure CheckValue where
  spamhaus : SpamhausResult
  wayback : WaybackResult
deriving DecidableEq

/-- `spamhaus?.error || wayback?.error` (error strings are non-empty). -/
def hasCheckError (v : CheckValue) : Bool :=
  v.spamhaus.error.isSome || v.wayback.error.isSome

/-- One `checkCache` entry: insertion timestamp and merged value. -/
structure CacheEntry where
  ts : ℕ
  value : CheckValue
deriving DecidableEq

/-- The in-memory `checkCache` map, keyed by normalized domain. -/
abbrev CheckCache := List (String × CacheEntry)

/-- `checkCache.get(domain)`. -/
def cacheGet (m : CheckCache) (k : String) : Option CacheEntry :=
  (m.find? (fun p => p.1 == k)).map (·.2)

/-- `checkCache.set(domain, entry)` (overwrites an existing key). -/
def cacheSet (m : CheckCache) (k : String) (v : CacheEntry) : CheckCache :=
  (k, v) :: m.filter (fun p => ¬ p.1 == k)

/-- `CHECK_TTL_MS = 15 * 60 * 1000`. -/
def CHECK_TTL_MS : ℕ := 15 * 60 * 1000

/-- The check-route response: 400 for an invalid domain, else the merged
value with the `cached` flag. -/
inductive CheckResponse where
  | badRequest
  | okResp (domain : String) (cached : Bool) (value : CheckValue)
deriving DecidableEq

/-- Outcome of one check request: response, updated cache, and whether
the two remote checks were dispatched. -/
structure CheckOutcome where
  response : CheckResponse
  cache : CheckCache
  remoteCalled : Bool
deriving DecidableEq

/-- `POST /api/domains/check`: normalize, consult the TTL cache, and on a
miss merge the fresh remote results (`fresh` stands for what the two
concurrent checks would return) and cache them only when error-free. -/
def handleDomainsCheck (cache : CheckCache) (now : ℕ) (rawDomain : Option String)
    (fresh : CheckValue) : CheckOutcome :=
  match normalizeDomain rawDomain with
  | none => ⟨.badRequest, cache, false⟩
  | some domain =>
    let hit : Option CheckValue :=
      match cacheGet cache domain with
      | some e => if now - e.ts < CHECK_TTL_MS then some e.value else none
      | none => none
    match hit with
    | some v => ⟨.okResp domain true v, cache, false⟩
    | none =>
      let cache' := if hasCheckError fresh then cache
        else cacheSet cache domain ⟨now, fresh⟩
      ⟨.okResp domain false fresh, cache', true⟩

/-! ## The Spamhaus credential manager -/

/-- The credential environment, after the `||`-coalescing of the source:
`directKey` is the first truthy of the three static-key variables, and
`username`/`password` are null when unset or empty. -/
structure SpamhausEnv where
  directKey : Option String := none
  username : Option String := none
  password : Option String := none
deriving DecidableEq

/-- The cached `spamhausIntelAuth` value. -/
structure SpamhausAuth where
  token : String
  expiresAtMs : ℤ
deriving DecidableEq

/-- The `source` tag `getSpamhausIntelToken` reports. -/
inductive TokenSource where
  | api_key
  | missing
  | login_cached
  | login
deriving DecidableEq

/-- The login endpoint response: `ok`/`status` of the HTTP reply, the
token (null when absent or empty), and `Number(json?.expires || 0)`
with non-numeric collapsed to 0. -/
structure LoginResponse where
  ok : Bool
  status : ℕ
  token : Option String := none
  expires : ℤ := 0
deriving DecidableEq

instance {ε α : Type} [DecidableEq ε] [DecidableEq α] : DecidableEq (Except ε α)
  | .error e, .error f =>
    if h : e = f then .isTrue (by rw [h]) else
      .isFalse (fun hc => by cases hc; exact h rfl)
  | .ok x, .ok y =>
    if h : x = y then .isTrue (by rw [h]) else
      .isFalse (fun hc => by cases hc; exact h rfl)
  | .error _, .ok _ => .isFalse (fun hc => by cases hc)
  | .ok _, .error _ => .isFalse (fun hc => by cases hc)

/-- Outcome of `getSpamhausIntelToken`: the token/source pair or a thrown
message, the new cached auth state, and whether a login was attempted. -/
structure TokenOutcome where
  result : Except String (Option String × TokenSource)
  auth : Option SpamhausAuth
  loginCalled : Bool
deriving DecidableEq

/-- The login branch of `getSpamhausIntelToken`. -/
def spamhausLogin (auth : Option SpamhausAuth) (now : ℤ) (login : LoginResponse) :
    TokenOutcome :=
  if ¬ login.ok then
    ⟨.error ("Spamhaus login failed: HTTP " ++ toString login.status), auth, true⟩
  else
    match login.token with
    | none => ⟨.error "Spamhaus login failed: no token in response", auth, true⟩
    | some t =>
      let newAuth : SpamhausAuth :=
        ⟨t, if login.expires ≠ 0 then login.expires * 1000
            else now + 23 * 60 * 60 * 1000⟩
      ⟨.ok (some t, .login), some newAuth, true⟩

/-- `getSpamhausIntelToken`: static key first, then the cached token while
more than 60 s before expiry, then a fresh login. -/
def getSpamhausIntelToken (env : SpamhausEnv) (auth : Option SpamhausAuth)
    (now : ℤ) (login : LoginResponse) : TokenOutcome :=
  match env.directKey with
  | some k => ⟨.ok (some k, .api_key), auth, false⟩
  | none =>
    match env.username, env.password with
    | some _, some _ =>
      match auth with
      | some a =>
        if a.token ≠ "" ∧ a.expiresAtMs ≠ 0 ∧ now < a.expiresAtMs - 60000 then
          ⟨.ok (some a.token, .login_cached), auth, false⟩
        else spamhausLogin auth now login
      | none => spamhausLogin auth now login
    | _, _ => ⟨.ok (none, .missing), auth, false⟩

/-- Outcome of the protected Spamhaus lookup HTTP call. -/
inductive LookupOutcome where
  | resp (status : ℕ) (body : Option String)
  | transportErr (msg : String)
deriving DecidableEq

/-- `checkSpamhaus`: token acquisition, then the intel lookup; a 401/403
response clears the cached auth state.  Returns the branch result, the
new auth state, and whether a login was attempted. -/
def checkSpamhaus (env : SpamhausEnv) (auth : Option SpamhausAuth) (now : ℤ)
    (login : LoginResponse) (lookup : LookupOutcome) :
    Except String (SpamhausResult × Option SpamhausAuth × Bool) :=
  let tk := getSpamhausIntelToken env auth now login
  match tk.result with
  | .error e => .error e
  | .ok (none, src) =>
    .ok ({ supported := false,
           error := some (if src = .missing then
             "Missing Spamhaus Intel credentials" else "Missing Spamhaus Intel token") },
         tk.auth, tk.loginCalled)
  | .ok (some _, _) =>
    match lookup with
    | .resp 404 _ =>
      .ok ({ supported := true, listed := some false }, tk.auth, tk.loginCalled)
    | .resp 200 body =>
      .ok ({ supported := true, listed := some true, raw := body },
           tk.auth, tk.loginCalled)
    | .resp s _ =>
      if s = 401 ∨ s = 403 then
        .ok ({ supported := true,
               error := some ("Auth failed (HTTP " ++ toString s ++ ")") },
             none, tk.loginCalled)
      else
        .ok ({ supported := true, error := some ("HTTP " ++ toString s) },
             tk.auth, tk.loginCalled)
    | .transportErr m =>
      .ok ({ supported := true, error := some m }, tk.auth, tk.loginCalled)

/-! ## The retrying fetch helper (`fetchJsonWithRetry`) -/

/-- One attempt outcome: an HTTP response status, or a transport failure
(a thrown fetch error or timeout). -/
inductive FetchOutcome where
  | resp (status : ℕ)
  | transportErr
deriving DecidableEq

/-- The retry trigger: `status >= 500 || status === 429`, or any throw. -/
def retryTrigger : FetchOutcome → Bool
  | .resp s => decide (500 ≤ s) || decide (s = 429)
  | .transportErr => true

/-- The attempt loop of `fetchJsonWithRetry`, with `remaining` retries
left after the current attempt: returns the attempt count, the backoff
delays slept (in ms), and `some status` for a returned response or
`none` for a thrown transport error. -/
def fetchGo (out : ℕ → FetchOutcome) (attempt : ℕ) : ℕ → ℕ × List ℕ × Option ℕ
  | 0 =>
    match out attempt with
    | .resp s => (1, [], some s)
    | .transportErr => (1, [], none)
  | r + 1 =>
    if retryTrigger (out attempt) then
      let t := fetchGo out (attempt + 1) r
      (t.1 + 1, 250 * 2 ^ attempt :: t.2.1, t.2.2)
    else
      match out attempt with
      | .resp s => (1, [], some s)
      | .transportErr => (1, [], none)

/-- `fetchJsonWithRetry(url, options, {retries})`, abstracted over the
per-attempt outcomes. -/
def fetchJsonWithRetry (out : ℕ → FetchOutcome) (retries : ℕ) :
    ℕ × List ℕ × Option ℕ :=
  fetchGo out 0 retries

/-- Retry budget of the Spamhaus login call (`retries: 1`). -/
def spamhausLoginRetries : ℕ := 1

/-- Retry budget of the Spamhaus intel lookup call (`retries: 1`). -/
def spamhausLookupRetries : ℕ := 1

/-- Retry budget of the Wayback availability call (`retries: 1`). -/
def waybackAvailabilityRetries : ℕ := 1

/-- Retry budget of the Wayback CDX count call (`retries: 0`). -/
def waybackCdxRetries : ℕ := 0

/-- Default retry budget of the helper itself (`retries = 2`). -/
def fetchDefaultRetries : ℕ := 2

/-! ## Wayback CDX count parsing -/

/-- The CDX branch input: `none` when the fetch threw (caught to null),
else the `ok` flag and the parsed JSON (`some rows` when an array). -/
def cdxSnapshots (cdxResult : Option (Bool × Option (List (List String)))) :
    SnapCount :=
  match cdxResult with
  | some (true, some rows) =>
    if rows.length > 0 then
      let s := rows.length - 1
      if 9999 ≤ s then .capped else .count s
    else .noCount
  | _ => .noCount

/-! ## Fragment semantics helpers -/

/-- Recognise a fragment of the form `NOT (f)` and return `f`. -/
def unNot (f : String) : Option String :=
  if "NOT (".data.isPrefixOf f.data then
    match (f.data.drop 5).reverse with
    | ')' :: rest => some ⟨rest.reverse⟩
    | _ => none
  else none

/-- Truth of one fragment under an assignment `v` of atomic fragments:
a `NOT (f)` wrapper negates the inner fragment. -/
def evalFrag (v : String → Bool) (f : String) : Bool :=
  match unNot f with
  | some inner => ! v inner
  | none => v f

/-- Truth of the AND-joined WHERE list under an assignment `v`. -/
def conjSat (v : String → Bool) (fs : List String) : Bool := fs.all (evalFrag v)

/-! ## Concrete fixtures for witnesses and counterexamples -/

/-- A catalog with a domain and a status column only. -/
def metaDomainStatus : TableMeta :=
  ⟨"public", "expired_domains",
   [⟨"domain", "text", "text"⟩, ⟨"status", "text", "text"⟩]⟩

/-- A catalog with a domain and an expiration-date column only. -/
def metaDomainExpiration : TableMeta :=
  ⟨"public", "expired_domains",
   [⟨"domain", "text", "text"⟩,
    ⟨"domain_expiration_date", "timestamp without time zone", "timestamp"⟩]⟩

/-- A catalog with a domain and a TLD column. -/
def metaDomainTld : TableMeta :=
  ⟨"public", "expired_domains",
   [⟨"domain", "text", "text"⟩, ⟨"tld", "text", "text"⟩]⟩

/-- A catalog with a domain column only. -/
def metaDomainOnly : TableMeta :=
  ⟨"public", "expired_domains", [⟨"domain", "text", "text"⟩]⟩

/-- An empty catalog (what a failed catalog query degrades to). -/
def metaEmpty : TableMeta := ⟨"public", "expired_domains", []⟩

/-- A `Number(...)` oracle for scenarios in which it is never consulted. -/
def jsNumberNan : String → JsNum := fun _ => .nan

/-- An error-free merged check value (Spamhaus 404, empty Wayback data). -/
def freshOkValue : CheckValue :=
  { spamhaus := { supported := true, listed := some false }
    wayback := { link := "https://web.archive.org/web/*/example.com" } }

/-! ## Helper lemmas -/

theorem stepAge_none (jsN : String → JsNum) (col : Option String) (c : Criteria)
    (st : WhereState) (hf : c.ageYearsFrom = none) (ht : c.ageYearsTo = none) :
    stepAge jsN col c st = st := by
  cases col <;> simp [stepAge, hf, ht, normalizeString]

theorem data_append (a b : String) : (a ++ b).data = a.data ++ b.data := by
  cases a; cases b; rfl

theorem unNot_wrap (f : String) : unNot ("NOT (" ++ f ++ ")") = some f := by
  cases f with
  | mk l =>
    show unNot ⟨'N' :: 'O' :: 'T' :: ' ' :: '(' :: (l ++ [')'])⟩ = some ⟨l⟩
    simp [unNot, List.isPrefixOf]

theorem unNot_quoteIdent_append (s rest : String) :
    unNot (quoteIdent s ++ rest) = none := by
  cases s with
  | mk l =>
    cases rest with
    | mk r =>
      show unNot ⟨('"' :: (escQuote l ++ ['"'])) ++ r⟩ = none
      simp [unNot, List.isPrefixOf]

theorem unNot_statusFrag (s : String) (n : ℕ) :
    unNot (statusDeletedFrag s n) = none := by
  have h : statusDeletedFrag s n =
      quoteIdent s ++ ("::text ILIKE ANY(" ++ (ph n ++ "::text[])")) := by
    simp [statusDeletedFrag, String.append_assoc]
  rw [h, unNot_quoteIdent_append]

theorem unNot_nullifLit_append (rest : String) :
    unNot ("NULLIF(" ++ rest) = none := by
  cases rest with
  | mk r =>
    show unNot ⟨'N' :: 'U' :: 'L' :: 'L' :: 'I' :: 'F' :: '(' :: r⟩ = none
    simp [unNot, List.isPrefixOf]

theorem unNot_tsRangeFrag (col : String) (n : ℕ) :
    unNot (tsRangeFrag col n) = none := by
  have h : tsRangeFrag col n = "NULLIF(" ++
      (quoteIdent col ++ ("::text, '')::timestamp >= NOW() AND NULLIF("
        ++ (quoteIdent col ++ ("::text, '')::timestamp < (NOW() + ("
        ++ (ph n ++ "::int || ' days')::interval)")))))  := by
    simp [tsRangeFrag, String.append_assoc]
  rw [h, unNot_nullifLit_append]

theorem all_eq_false_of_mem {p : String → Bool} {l : List String} {x : String}
    (hx : x ∈ l) (hpx : p x = false) : l.all p = false := by
  rcases h : l.all p with _ | _
  · rfl
  · have := List.all_eq_true.mp h x hx
    rw [hpx] at this
    exact absurd this (by simp)

theorem conjSat_contradiction (v : String → Bool) (l : List String) (f : String)
    (hf : unNot f = none) (h1 : f ∈ l) (h2 : ("NOT (" ++ f ++ ")") ∈ l) :
    conjSat v l = false := by
  rcases hv : v f with _ | _
  · exact all_eq_false_of_mem h1 (by simp [evalFrag, hf, hv])
  · exact all_eq_false_of_mem h2 (by simp [evalFrag, unNot_wrap, hv])

/-- Shared computation: `deleted` lifecycle against status-only metadata. -/
theorem buildWhere_deleted_statusOnly (meta : TableMeta) (s dom : String)
    (jsN : String → JsNum)
    (hS : statusColumnOf meta = some s)
    (hF : deletedFlagColumnOf meta = none)
    (hA : deletedAtColumnOf meta = none) :
    buildWhere jsN meta dom { lifecycleState := some "deleted" } =
      ⟨[statusDeletedFrag s 1, statusDeletedFrag s 1],
       [.strList ["%deleted%", "%dropped%", "%removed%"]]⟩ := by
  simp only [buildWhere]
  rw [hS, hF, hA, stepAge_none _ _ _ _ rfl rfl]
  rfl

/-! ## Claim C1 -/

/-- C1 counterexample: with only a domain and an expiration-date column
(no status, deleted-flag, deleted-at, or scheduled-delete column), the
criteria `{lifecycleState: "expiring", expiringWithinDays: 10}` compile
to the single range fragment on the expiration date — the WHERE list
contains no `NOT (...)` conjunct at all, because no status column
exists from which the deletedFragment fallback could be derived. -/
theorem expiring_only_expiration_no_not_conjunct_cex :
    (buildWhere jsNumberNan metaDomainExpiration "domain"
        { lifecycleState := some "expiring", expiringWithinDays := .num 10 }).whereFrags
      = [tsRangeFrag "domain_expiration_date" 1]
    ∧ (∀ f ∈ (buildWhere jsNumberNan metaDomainExpiration "domain"
        { lifecycleState := some "expiring", expiringWithinDays := .num 10 }).whereFrags,
        unNot f = none)
    ∧ statusColumnOf metaDomainExpiration = none
    ∧ expiresColumnOf metaDomainExpiration = some "domain_expiration_date" := by
  decide

/-- C1 (amended): for criteria `{lifecycleState: "expiring",
expiringWithinDays: 10}` against metadata with an expiration-date
column but no status, deleted-flag, deleted-at, or scheduled-delete
column, the compiled WHERE list consists solely of the range predicate
constraining the expiration date to `[now, now + 10 days)` (bound
parameter 10); no deleted-fragment conjunct appears, since no column
exists from which one could be derived. -/
theorem expiring_only_expiration_compiles_range_only (meta : TableMeta)
    (e dom : String) (jsN : String → JsNum)
    (hE : expiresColumnOf meta = some e)
    (hS : statusColumnOf meta = none)
    (hF : deletedFlagColumnOf meta = none)
    (hA : deletedAtColumnOf meta = none)
    (hSc : scheduledDeleteColumnOf meta = none) :
    buildWhere jsN meta dom
        { lifecycleState := some "expiring", expiringWithinDays := .num 10 } =
      ⟨[tsRangeFrag e 1], [.int 10]⟩
    ∧ unNot (tsRangeFrag e 1) = none := by
  constructor
  · simp only [buildWhere]
    rw [hS, hF, hA, hE, hSc, stepAge_none _ _ _ _ rfl rfl]
    rfl
  · exact unNot_tsRangeFrag e 1

/-- C1 witness: the amended theorem applied to the concrete two-column
catalog. -/
theorem expiring_only_expiration_compiles_range_only_witness :
    buildWhere jsNumberNan metaDomainExpiration "domain"
        { lifecycleState := some "expiring", expiringWithinDays := .num 10 } =
      ⟨[tsRangeFrag "domain_expiration_date" 1], [.int 10]⟩ :=
  (expiring_only_expiration_compiles_range_only metaDomainExpiration
    "domain_expiration_date" "domain" jsNumberNan
    (by decide) (by decide) (by decide) (by decide) (by decide)).1

/-! ## Claim C2 -/

/-- C2: for every catalog with no deleted-flag and no deleted-at column
but with a status column, the `deleted` lifecycle state compiles to a
WHERE list that includes the status-pattern fallback fragment with the
`%deleted%/%dropped%/%removed%` pattern parameter and is never empty
(in fact it is exactly that fragment, pushed twice). -/
theorem deleted_state_status_pattern_fallback (meta : TableMeta) (s dom : String)
    (jsN : String → JsNum)
    (hS : statusColumnOf meta = some s)
    (hF : deletedFlagColumnOf meta = none)
    (hA : deletedAtColumnOf meta = none) :
    statusDeletedFrag s 1 ∈
      (buildWhere jsN meta dom { lifecycleState := some "deleted" }).whereFrags
    ∧ (buildWhere jsN meta dom { lifecycleState := some "deleted" }).values
      = [.strList ["%deleted%", "%dropped%", "%removed%"]]
    ∧ (buildWhere jsN meta dom { lifecycleState := some "deleted" }).whereFrags ≠ [] := by
  rw [buildWhere_deleted_statusOnly meta s dom jsN hS hF hA]
  refine ⟨List.mem_cons_self _ _, rfl, by simp⟩

/-- C2 witness: the theorem applied to the concrete domain+status catalog. -/
theorem deleted_state_status_pattern_fallback_witness :
    statusDeletedFrag "status" 1 ∈
      (buildWhere jsNumberNan metaDomainStatus "domain"
        { lifecycleState := some "deleted" }).whereFrags
    ∧ (buildWhere jsNumberNan metaDomainStatus "domain"
        { lifecycleState := some "deleted" }).whereFrags ≠ [] :=
  ⟨(deleted_state_status_pattern_fallback metaDomainStatus "status" "domain"
      jsNumberNan (by decide) (by decide) (by decide)).1,
   (deleted_state_status_pattern_fallback metaDomainStatus "status" "domain"
      jsNumberNan (by decide) (by decide) (by decide)).2.2⟩

/-! ## Claim C3 -/

/-- C3: when the catalog has no deleted-flag and no deleted-at column but
has a status column, any requested lifecycle state pushes the
status-pattern deleted fragment unconditionally: for `deleted` it is
pushed twice (the WHERE list is exactly the fragment twice over), and
for `active` and `expiring` its negation `NOT (...)` is pushed as well,
making the conjunction unsatisfiable under every assignment of the
atomic fragments. -/
theorem lifecycle_status_pattern_pushed_unconditionally (meta : TableMeta)
    (s dom : String) (jsN : String → JsNum)
    (hS : statusColumnOf meta = some s)
    (hF : deletedFlagColumnOf meta = none)
    (hA : deletedAtColumnOf meta = none) :
    (buildWhere jsN meta dom { lifecycleState := some "deleted" }).whereFrags
      = [statusDeletedFrag s 1, statusDeletedFrag s 1]
    ∧ ∀ lc, lc = "active" ∨ lc = "expiring" →
      ∃ rest, (buildWhere jsN meta dom { lifecycleState := some lc }).whereFrags
          = statusDeletedFrag s 1 :: ("NOT (" ++ statusDeletedFrag s 1 ++ ")") :: rest
        ∧ ∀ v : String → Bool,
            conjSat v ((buildWhere jsN meta dom { lifecycleState := some lc }).whereFrags)
              = false := by
  constructor
  · rw [buildWhere_deleted_statusOnly meta s dom jsN hS hF hA]
  intro lc hlc
  have key : ∃ rest, (buildWhere jsN meta dom { lifecycleState := some lc }).whereFrags
      = statusDeletedFrag s 1 :: ("NOT (" ++ statusDeletedFrag s 1 ++ ")") :: rest := by
    rcases hlc with rfl | rfl
    · rcases hex : expiresColumnOf meta with _ | e
      · simp only [buildWhere]
        rw [hS, hF, hA, hex, stepAge_none _ _ _ _ rfl rfl]
        exact ⟨_, rfl⟩
      · simp only [buildWhere]
        rw [hS, hF, hA, hex, stepAge_none _ _ _ _ rfl rfl]
        exact ⟨_, rfl⟩
    · rcases hsc : scheduledDeleteColumnOf meta with _ | sd
      · rcases hex : expiresColumnOf meta with _ | e
        · simp only [buildWhere]
          rw [hS, hF, hA, hsc, hex, stepAge_none _ _ _ _ rfl rfl]
          exact ⟨_, rfl⟩
        · simp only [buildWhere]
          rw [hS, hF, hA, hsc, hex, stepAge_none _ _ _ _ rfl rfl]
          exact ⟨_, rfl⟩
      · simp only [buildWhere]
        rw [hS, hF, hA, hsc, stepAge_none _ _ _ _ rfl rfl]
        exact ⟨_, rfl⟩
  rcases key with ⟨rest, hrest⟩
  refine ⟨rest, hrest, fun v => ?_⟩
  apply conjSat_contradiction v _ (statusDeletedFrag s 1) (unNot_statusFrag s 1)
  · rw [hrest]; exact List.mem_cons_self _ _
  · rw [hrest]; exact List.mem_cons_of_mem _ (List.mem_cons_self _ _)

/-- C3 witness: the theorem applied to the concrete domain+status catalog,
in the `expiring` state. -/
theorem lifecycle_status_pattern_pushed_unconditionally_witness :
    (buildWhere jsNumberNan metaDomainStatus "domain"
        { lifecycleState := some "deleted" }).whereFrags
      = [statusDeletedFrag "status" 1, statusDeletedFrag "status" 1]
    ∧ ∃ rest, (buildWhere jsNumberNan metaDomainStatus "domain"
          { lifecycleState := some "expiring" }).whereFrags
        = statusDeletedFrag "status" 1
            :: ("NOT (" ++ statusDeletedFrag "status" 1 ++ ")") :: rest
      ∧ ∀ v : String → Bool,
          conjSat v ((buildWhere jsNumberNan metaDomainStatus "domain"
            { lifecycleState := some "expiring" }).whereFrags) = false :=
  ⟨(lifecycle_status_pattern_pushed_unconditionally metaDomainStatus "status"
      "domain" jsNumberNan (by decide) (by decide) (by decide)).1,
   (lifecycle_status_pattern_pushed_unconditionally metaDomainStatus "status"
      "domain" jsNumberNan (by decide) (by decide) (by decide)).2 "expiring"
      (Or.inr rfl)⟩

/-! ## Claim C4 -/

/-- C4 counterexample: with a TLD column present, the term `.COM` is
bound raw — the parameter list is `[".COM"]`, not the normalised
`["com"]` the claim asserts. -/
theorem tld_column_binds_raw_terms_cex :
    (buildWhere jsNumberNan metaDomainTld "domain" { tld := some ".COM" }).values
      = [.strList [".COM"]]
    ∧ [".COM"] ≠ ["com"]
    ∧ tldColumnOf metaDomainTld = some "tld" := by
  decide

/-- C4 (amended): for every non-empty TLD list: if a TLD column exists the
predicate is an exact `= ANY` match binding the raw comma/space-split
list (trimmed but neither lowercased nor dot-stripped); if no TLD
column exists the predicate is a case-insensitive suffix-pattern match
on the domain column, each term independently normalised to
`%.<lowercased, dot-stripped tld>`. -/
theorem tld_filter_two_paths (meta : TableMeta) (dom tldRaw : String)
    (jsN : String → JsNum) (a : String) (as : List String)
    (hL : splitList (some tldRaw) = a :: as) :
    (∀ t, tldColumnOf meta = some t →
      buildWhere jsN meta dom { tld := some tldRaw } =
        ⟨[quoteIdent t ++ " = ANY(" ++ ph 1 ++ "::text[])"],
         [.strList (splitList (some tldRaw))]⟩)
    ∧ (tldColumnOf meta = none →
      buildWhere jsN meta dom { tld := some tldRaw } =
        ⟨["LOWER(" ++ quoteIdent dom ++ ") LIKE ANY(" ++ ph 1 ++ "::text[])"],
         [.strList ((splitList (some tldRaw)).map normTldPattern)]⟩) := by
  constructor
  · intro t hT
    simp only [buildWhere]
    rw [stepAge_none _ _ _ _ rfl rfl]
    simp only [stepTld, hL, hT, List.isEmpty_cons]
    rw [← hL]
    rfl
  · intro hT
    simp only [buildWhere]
    rw [stepAge_none _ _ _ _ rfl rfl]
    simp only [stepTld, hL, hT, List.isEmpty_cons]
    rw [← hL]
    rfl

/-- C4 witness: the theorem applied on both paths — the catalog with a
TLD column binds the raw list, the domain-only catalog the normalised
suffix patterns. -/
theorem tld_filter_two_paths_witness :
    buildWhere jsNumberNan metaDomainTld "domain" { tld := some ".COM net" } =
      ⟨[quoteIdent "tld" ++ " = ANY(" ++ ph 1 ++ "::text[])"],
       [.strList [".COM", "net"]]⟩
    ∧ buildWhere jsNumberNan metaDomainOnly "domain" { tld := some ".COM net" } =
      ⟨["LOWER(" ++ quoteIdent "domain" ++ ") LIKE ANY(" ++ ph 1 ++ "::text[])"],
       [.strList ["%.com", "%.net"]]⟩ := by
  constructor
  · have h := (tld_filter_two_paths metaDomainTld "domain" ".COM net" jsNumberNan
      ".COM" ["net"] (by decide)).1 "tld" (by decide)
    rw [h]
    decide
  · have h := (tld_filter_two_paths metaDomainOnly "domain" ".COM net" jsNumberNan
      ".COM" ["net"] (by decide)).2 (by decide)
    rw [h]
    decide

/-! ## Claim C5 -/

/-- Arithmetic of `max(1, ceil(total / b))` computed as
`max 1 ((total + b - 1) / b)`: it is positive, covers all rows, and is
the least such page count. -/
theorem totalPages_ceil_spec (total b : ℕ) (hb : 1 ≤ b) :
    1 ≤ max 1 ((total + b - 1) / b)
    ∧ total ≤ b * max 1 ((total + b - 1) / b)
    ∧ (2 ≤ max 1 ((total + b - 1) / b) →
        b * (max 1 ((total + b - 1) / b) - 1) < total) := by
  rcases Nat.eq_zero_or_pos total with h0 | h1
  · subst h0
    have hz : (0 + b - 1) / b = 0 := Nat.div_eq_of_lt (by omega)
    rw [hz]
    omega
  · have harg : total + b - 1 = (total - 1) + b := by omega
    rw [harg, Nat.add_div_right (total - 1) (show 0 < b by omega)]
    have hmax : max 1 ((total - 1) / b + 1) = (total - 1) / b + 1 :=
      Nat.max_eq_right (Nat.le_add_left 1 _)
    rw [hmax]
    have hdm := Nat.div_add_mod (total - 1) b
    have hmlt : (total - 1) % b < b := Nat.mod_lt _ (by omega)
    have hexp : b * ((total - 1) / b + 1) = b * ((total - 1) / b) + b := by ring
    have hle : (total - 1) / b * b ≤ total - 1 := Nat.div_mul_le_self _ _
    have hcomm : b * ((total - 1) / b) = (total - 1) / b * b := by ring
    refine ⟨by omega, by omega, ?_⟩
    intro h2
    simp only [Nat.add_sub_cancel]
    omega

/-- C5: for every client-supplied page and pageSize (non-finite values
included), the effective pageSize lies in `[1, 500]` with default 50,
the effective page is at least 1 with default 1, `pageSize` 10000 is
clamped to 500 and `page` 0 to 1, the offset is
`(page − 1) × pageSize`, and `totalPages` is `max(1, ceil(total /
pageSize))` — positive, covering all rows, and least such. -/
theorem pagination_clamped (p ps : JsNum) (total : ℕ) :
    1 ≤ (paginate p ps total).pageSize
    ∧ (paginate p ps total).pageSize ≤ 500
    ∧ (ps = .nan → (paginate p ps total).pageSize = 50)
    ∧ (p = .nan → (paginate p ps total).page = 1)
    ∧ 1 ≤ (paginate p ps total).page
    ∧ (paginate p ps total).offset =
        ((paginate p ps total).page - 1) * (paginate p ps total).pageSize
    ∧ (paginate p (.num 10000) total).pageSize = 500
    ∧ (paginate (.num 0) ps total).page = 1
    ∧ 1 ≤ (paginate p ps total).totalPages
    ∧ total ≤ (paginate p ps total).pageSize.toNat * (paginate p ps total).totalPages
    ∧ (2 ≤ (paginate p ps total).totalPages →
        (paginate p ps total).pageSize.toNat * ((paginate p ps total).totalPages - 1)
          < total) := by
  have hps1 : 1 ≤ (paginate p ps total).pageSize := by
    cases ps <;> simp [paginate, clampInt]
  have hps2 : (paginate p ps total).pageSize ≤ 500 := by
    cases ps <;> simp [paginate, clampInt]
  have hpg : 1 ≤ (paginate p ps total).page := by
    cases p <;> simp [paginate, clampInt]
  have hbnat : 1 ≤ (paginate p ps total).pageSize.toNat := by omega
  have hceil := totalPages_ceil_spec total (paginate p ps total).pageSize.toNat hbnat
  refine ⟨hps1, hps2, ?_, ?_, hpg, rfl, ?_, ?_, hceil.1, hceil.2.1, hceil.2.2⟩
  · rintro rfl; rfl
  · rintro rfl; rfl
  · simp [paginate, clampInt, jsTrunc]
  · simp [paginate, clampInt, jsTrunc]

/-! ## Claim C6 -/

theorem cacheGet_set_self (m : CheckCache) (k : String) (v : CacheEntry) :
    cacheGet (cacheSet m k v) k = some v := by
  simp [cacheGet, cacheSet, List.find?]

theorem mem_cacheSet {m : CheckCache} {k : String} {v : CacheEntry}
    {e : String × CacheEntry} (he : e ∈ cacheSet m k v) :
    e = (k, v) ∨ e ∈ m := by
  simp only [cacheSet] at he
  rcases List.mem_cons.mp he with h | h
  · exact Or.inl h
  · exact Or.inr (List.mem_of_mem_filter h)

theorem handleCheck_hit (cache : CheckCache) (now : ℕ) (raw : Option String)
    (fresh : CheckValue) (nd : String) (en : CacheEntry)
    (hn : normalizeDomain raw = some nd) (hg : cacheGet cache nd = some en)
    (htt : now - en.ts < CHECK_TTL_MS) :
    handleDomainsCheck cache now raw fresh = ⟨.okResp nd true en.value, cache, false⟩ := by
  unfold handleDomainsCheck
  rw [hn]
  simp [hg, htt]

theorem handleCheck_store (cache : CheckCache) (now : ℕ) (raw : Option String)
    (fresh : CheckValue) (nd : String)
    (hn : normalizeDomain raw = some nd)
    (hmiss : ∀ e, cacheGet cache nd = some e → ¬ now - e.ts < CHECK_TTL_MS)
    (herr : hasCheckError fresh = false) :
    handleDomainsCheck cache now raw fresh =
      ⟨.okResp nd false fresh, cacheSet cache nd ⟨now, fresh⟩, true⟩ := by
  unfold handleDomainsCheck
  rw [hn]
  rcases hg : cacheGet cache nd with _ | en
  · simp [hg, herr]
  · have := hmiss en hg
    simp [hg, this, herr]

theorem handleCheck_skip (cache : CheckCache) (now : ℕ) (raw : Option String)
    (fresh : CheckValue) (nd : String)
    (hn : normalizeDomain raw = some nd)
    (hmiss : ∀ e, cacheGet cache nd = some e → ¬ now - e.ts < CHECK_TTL_MS)
    (herr : hasCheckError fresh = true) :
    handleDomainsCheck cache now raw fresh =
      ⟨.okResp nd false fresh, cache, true⟩ := by
  unfold handleDomainsCheck
  rw [hn]
  rcases hg : cacheGet cache nd with _ | en
  · simp [hg, herr]
  · have := hmiss en hg
    simp [hg, this, herr]

/-- C6: the check-route cache policy — a merged result carrying an error
on either branch leaves the cache untouched; the error-free invariant
of the cache is preserved by every request; and an error-free result on
a miss is stored and then served from the cache (with `cached: true`
and no remote dispatch) to any second request normalising to the same
domain within the 15-minute TTL. -/
theorem checkCache_policy (cache : CheckCache) (now : ℕ) (raw : Option String)
    (fresh : CheckValue) :
    (hasCheckError fresh = true →
      (handleDomainsCheck cache now raw fresh).cache = cache)
    ∧ ((∀ e ∈ cache, hasCheckError e.2.value = false) →
        ∀ e ∈ (handleDomainsCheck cache now raw fresh).cache,
          hasCheckError e.2.value = false)
    ∧ (∀ nd, normalizeDomain raw = some nd →
        (∀ e, cacheGet cache nd = some e → ¬ now - e.ts < CHECK_TTL_MS) →
        hasCheckError fresh = false →
        (handleDomainsCheck cache now raw fresh).response = .okResp nd false fresh
        ∧ (handleDomainsCheck cache now raw fresh).cache
            = cacheSet cache nd ⟨now, fresh⟩
        ∧ ∀ (raw2 : Option String) (now2 : ℕ) (fresh2 : CheckValue),
            normalizeDomain raw2 = some nd → now2 - now < CHECK_TTL_MS →
            handleDomainsCheck (handleDomainsCheck cache now raw fresh).cache
                now2 raw2 fresh2
              = ⟨.okResp nd true fresh,
                 (handleDomainsCheck cache now raw fresh).cache, false⟩) := by
  refine ⟨?_, ?_, ?_⟩
  · intro herr
    rcases hn : normalizeDomain raw with _ | nd
    · unfold handleDomainsCheck
      rw [hn]
    · rcases hg : cacheGet cache nd with _ | en
      · rw [handleCheck_skip cache now raw fresh nd hn
          (fun e he => absurd (hg ▸ he) (by simp)) herr]
      · by_cases htt : now - en.ts < CHECK_TTL_MS
        · rw [handleCheck_hit cache now raw fresh nd en hn hg htt]
        · rw [handleCheck_skip cache now raw fresh nd hn
            (fun e he => by rw [hg] at he; cases he; exact htt) herr]
  · intro hinv e he
    rcases hn : normalizeDomain raw with _ | nd
    · unfold handleDomainsCheck at he
      rw [hn] at he
      exact hinv e he
    · by_cases hhit : ∃ en, cacheGet cache nd = some en ∧ now - en.ts < CHECK_TTL_MS
      · rcases hhit with ⟨en, hg, htt⟩
        rw [handleCheck_hit cache now raw fresh nd en hn hg htt] at he
        exact hinv e he
      · have hmiss : ∀ en, cacheGet cache nd = some en → ¬ now - en.ts < CHECK_TTL_MS :=
          fun en hg htt => hhit ⟨en, hg, htt⟩
        rcases herr : hasCheckError fresh with _ | _
        · rw [handleCheck_store cache now raw fresh nd hn hmiss herr] at he
          rcases mem_cacheSet he with h | h
          · rw [h]; exact herr
          · exact hinv e h
        · rw [handleCheck_skip cache now raw fresh nd hn hmiss herr] at he
          exact hinv e he
  · intro nd hn hmiss herr
    have hmain := handleCheck_store cache now raw fresh nd hn hmiss herr
    refine ⟨by rw [hmain], by rw [hmain], ?_⟩
    intro raw2 now2 fresh2 hn2 htt2
    rw [hmain]
    exact handleCheck_hit _ now2 raw2 fresh2 nd ⟨now, fresh⟩ hn2
      (cacheGet_set_self _ _ _) htt2

/-- C6 witness: `Example.COM` on an empty cache — the error-free merged
result is stored, and a second request 1 s later is served from the
cache with `cached: true` and no remote dispatch. -/
theorem checkCache_policy_witness :
    (handleDomainsCheck [] 0 (some "Example.COM") freshOkValue).response
      = .okResp "example.com" false freshOkValue
    ∧ handleDomainsCheck (handleDomainsCheck [] 0 (some "Example.COM") freshOkValue).cache
        1000 (some "example.com") freshOkValue
      = ⟨.okResp "example.com" true freshOkValue,
         (handleDomainsCheck [] 0 (some "Example.COM") freshOkValue).cache, false⟩ :=
  have h := (checkCache_policy [] 0 (some "Example.COM") freshOkValue).2.2
    "example.com" (by decide) (fun e he => by simp [cacheGet] at he) (by decide)
  ⟨h.1, h.2.2 (some "example.com") 1000 freshOkValue (by decide) (by decide)⟩

/-! ## Claim C7 -/

/-- C7: the credential manager prefers a configured static key (no login
call); treats the cached token as valid exactly while the current time
is more than 60 s before its recorded expiry (otherwise it re-logs-in);
caches a fresh login token with the declared expiry
(`expires × 1000` ms) or a 23-hour default when none is declared; and a
401/403 from the protected lookup clears the cached auth state, so a
following token request with credentials configured performs a fresh
login. -/
theorem credential_manager_lifecycle (env : SpamhausEnv) (auth : Option SpamhausAuth)
    (now : ℤ) (login : LoginResponse) :
    (∀ k, env.directKey = some k →
      getSpamhausIntelToken env auth now login = ⟨.ok (some k, .api_key), auth, false⟩)
    ∧ (∀ u p a, env.directKey = none → env.username = some u → env.password = some p →
        auth = some a → a.token ≠ "" → a.expiresAtMs ≠ 0 →
        ((now < a.expiresAtMs - 60000 →
          getSpamhausIntelToken env auth now login
            = ⟨.ok (some a.token, .login_cached), auth, false⟩)
        ∧ (¬ now < a.expiresAtMs - 60000 →
          getSpamhausIntelToken env auth now login = spamhausLogin auth now login
          ∧ (spamhausLogin auth now login).loginCalled = true)))
    ∧ (∀ u p t, env.directKey = none → env.username = some u → env.password = some p →
        auth = none → login.ok = true → login.token = some t →
        getSpamhausIntelToken env auth now login
          = ⟨.ok (some t, .login),
             some ⟨t, if login.expires ≠ 0 then login.expires * 1000
                      else now + 23 * 60 * 60 * 1000⟩, true⟩)
    ∧ (∀ s tok src, s = 401 ∨ s = 403 →
        (getSpamhausIntelToken env auth now login).result = .ok (some tok, src) →
        checkSpamhaus env auth now login (.resp s none)
          = .ok ({ supported := true,
                   error := some ("Auth failed (HTTP " ++ toString s ++ ")") },
                 none, (getSpamhausIntelToken env auth now login).loginCalled))
    ∧ (∀ u p, env.directKey = none → env.username = some u → env.password = some p →
        getSpamhausIntelToken env none now login = spamhausLogin none now login
        ∧ (spamhausLogin none now login).loginCalled = true) := by
  refine ⟨?_, ?_, ?_, ?_, ?_⟩
  · intro k hk
    unfold getSpamhausIntelToken
    rw [hk]
  · intro u p a hk hu hp ha htok hexp
    constructor
    · intro hlt
      unfold getSpamhausIntelToken
      simp only [hk, hu, hp, ha]
      rw [if_pos ⟨htok, hexp, hlt⟩]
    · intro hge
      have heq : getSpamhausIntelToken env auth now login = spamhausLogin auth now login := by
        unfold getSpamhausIntelToken
        simp only [hk, hu, hp, ha]
        rw [if_neg (fun hc => hge hc.2.2)]
      refine ⟨heq, ?_⟩
      unfold spamhausLogin
      rcases hok : login.ok
      · simp [hok]
      · rcases ht : login.token with _ | t <;> simp [hok, ht]
  · intro u p t hk hu hp ha hok ht
    unfold getSpamhausIntelToken
    simp only [hk, hu, hp, ha]
    unfold spamhausLogin
    rw [ht]
    simp [hok]
  · intro s tok src hs htk
    rcases hs with rfl | rfl
    · simp only [checkSpamhaus]
      rw [htk]
      rfl
    · simp only [checkSpamhaus]
      rw [htk]
      rfl
  · intro u p hk hu hp
    constructor
    · unfold getSpamhausIntelToken
      simp only [hk, hu, hp]
    · unfold spamhausLogin
      rcases hok : login.ok
      · simp [hok]
      · rcases ht : login.token with _ | t <;> simp [hok, ht]

/-- C7 witness: concrete runs of the four behaviours — static key
short-circuit, cached-token hit inside the 60 s margin, fresh login
with the 23-hour default expiry, and 403-triggered invalidation. -/
theorem credential_manager_lifecycle_witness :
    getSpamhausIntelToken ⟨some "KEY", none, none⟩ (some ⟨"tok", 1000000⟩) 5
        ⟨true, 200, some "newtok", 0⟩
      = ⟨.ok (some "KEY", .api_key), some ⟨"tok", 1000000⟩, false⟩
    ∧ getSpamhausIntelToken ⟨none, some "u", some "p"⟩ (some ⟨"tok", 1000000⟩) 0
        ⟨true, 200, some "newtok", 0⟩
      = ⟨.ok (some "tok", .login_cached), some ⟨"tok", 1000000⟩, false⟩
    ∧ getSpamhausIntelToken ⟨none, some "u", some "p"⟩ none 7
        ⟨true, 200, some "newtok", 0⟩
      = ⟨.ok (some "newtok", .login), some ⟨"newtok", 82800007⟩, true⟩
    ∧ checkSpamhaus ⟨none, some "u", some "p"⟩ (some ⟨"tok", 1000000⟩) 0
        ⟨true, 200, some "newtok", 0⟩ (.resp 403 none)
      = .ok ({ supported := true, error := some "Auth failed (HTTP 403)" },
             none, false) := by
  refine ⟨?_, ?_, ?_, ?_⟩
  · exact (credential_manager_lifecycle ⟨some "KEY", none, none⟩
      (some ⟨"tok", 1000000⟩) 5 ⟨true, 200, some "newtok", 0⟩).1 "KEY" rfl
  · exact ((credential_manager_lifecycle ⟨none, some "u", some "p"⟩
      (some ⟨"tok", 1000000⟩) 0 ⟨true, 200, some "newtok", 0⟩).2.1 "u" "p"
      ⟨"tok", 1000000⟩ rfl rfl rfl rfl (by decide) (by decide)).1 (by decide)
  · have h := (credential_manager_lifecycle ⟨none, some "u", some "p"⟩ none 7
      ⟨true, 200, some "newtok", 0⟩).2.2.1 "u" "p" "newtok" rfl rfl rfl rfl rfl rfl
    rw [h]
    decide
  · exact (credential_manager_lifecycle ⟨none, some "u", some "p"⟩
      (some ⟨"tok", 1000000⟩) 0 ⟨true, 200, some "newtok", 0⟩).2.2.2.1 403 "tok"
      .login_cached (Or.inr rfl) (by decide)

/-! ## Claim C8 -/

/-- Invariants of the `fetchJsonWithRetry` attempt loop, for any starting
attempt index: at least one and at most `retries + 1` attempts, backoff
delays `250 × 2^attempt` before each retry, retries happen only on a
trigger outcome, and stopping early means the last outcome was not a
trigger. -/
theorem fetchGo_spec (out : ℕ → FetchOutcome) :
    ∀ (r a : ℕ),
      1 ≤ (fetchGo out a r).1
      ∧ (fetchGo out a r).1 ≤ r + 1
      ∧ (fetchGo out a r).2.1
          = (List.range ((fetchGo out a r).1 - 1)).map (fun i => 250 * 2 ^ (a + i))
      ∧ (∀ i, i + 1 < (fetchGo out a r).1 → retryTrigger (out (a + i)) = true)
      ∧ ((fetchGo out a r).1 < r + 1 →
          retryTrigger (out (a + ((fetchGo out a r).1 - 1))) = false) := by
  intro r
  induction r with
  | zero =>
    intro a
    rcases ho : out a with s | _ <;> simp [fetchGo, ho]
  | succ n ih =>
    intro a
    rcases htr : retryTrigger (out a) with _ | _
    · have hstep : fetchGo out a (n + 1)
          = match out a with
            | .resp s => (1, [], some s)
            | .transportErr => (1, [], none) := by
        simp [fetchGo, htr]
      rcases ho : out a with s | _
      · simp only [ho] at hstep
        rw [hstep]
        dsimp only
        refine ⟨le_refl 1, by omega, by simp, ?_, ?_⟩
        · intro i hi
          omega
        · intro _
          simpa using htr
      · rw [ho] at htr
        simp [retryTrigger] at htr
    · obtain ⟨ih1, ih2, ih3, ih4, ih5⟩ := ih (a + 1)
      have hstep : fetchGo out a (n + 1)
          = ((fetchGo out (a + 1) n).1 + 1,
             250 * 2 ^ a :: (fetchGo out (a + 1) n).2.1,
             (fetchGo out (a + 1) n).2.2) := by
        simp [fetchGo, htr]
      rw [hstep]
      refine ⟨by omega, by omega, ?_, ?_, ?_⟩
      · simp only [Nat.add_sub_cancel]
        have hr : (fetchGo out (a + 1) n).1 = ((fetchGo out (a + 1) n).1 - 1) + 1 := by
          omega
        rw [hr, List.range_succ_eq_map, List.map_cons, List.map_map]
        refine List.cons_eq_cons.mpr ⟨by norm_num, ?_⟩
        rw [ih3]
        apply List.map_congr_left
        intro i _
        simp only [Function.comp]
        have heq : a + 1 + i = a + (i + 1) := by omega
        rw [heq]
      · intro i hi
        rcases i with _ | j
        · simpa using htr
        · have := ih4 j (by omega)
          have harr : a + 1 + j = a + (j + 1) := by omega
          rw [harr] at this
          exact this
      · intro hlt
        have := ih5 (by omega)
        have harr : a + 1 + ((fetchGo out (a + 1) n).1 - 1)
            = a + ((fetchGo out (a + 1) n).1 + 1 - 1) := by omega
        rw [harr] at this
        exact this

/-- C8 counterexample: under persistent transport failure the Spamhaus
lookup and the Wayback availability call make 2 attempts and the
Wayback CDX count call makes 1 — none makes the 3 attempts (first try
plus 2 retries) the claim asserts; only the helper default budget of 2
retries would. -/
theorem fetch_retry_budget_cex :
    (fetchJsonWithRetry (fun _ => .transportErr) spamhausLookupRetries).1 = 2
    ∧ (fetchJsonWithRetry (fun _ => .transportErr) waybackAvailabilityRetries).1 = 2
    ∧ (fetchJsonWithRetry (fun _ => .transportErr) waybackCdxRetries).1 = 1
    ∧ (fetchJsonWithRetry (fun _ => .transportErr) fetchDefaultRetries).1 = 3
    ∧ (2 : ℕ) ≠ 3 ∧ (1 : ℕ) ≠ 3 := by
  decide

/-- C8 (amended): the retry trigger is exactly a status ≥ 500, status
429, or a transport failure, each retry is preceded by a backoff of
`250ms × 2^attempt`, and the per-call budgets are 1 additional retry
for the Spamhaus lookup and Wayback availability calls and 0 for the
Wayback CDX count call (the helper default of 2 is overridden at every
call site). -/
theorem fetch_retry_schedule :
    spamhausLookupRetries = 1 ∧ waybackAvailabilityRetries = 1
    ∧ waybackCdxRetries = 0 ∧ spamhausLoginRetries = 1 ∧ fetchDefaultRetries = 2
    ∧ (∀ o, retryTrigger o = true ↔
        (∃ s, o = .resp s ∧ (500 ≤ s ∨ s = 429)) ∨ o = .transportErr)
    ∧ ∀ (out : ℕ → FetchOutcome) (r : ℕ),
        r = spamhausLookupRetries ∨ r = waybackAvailabilityRetries
          ∨ r = waybackCdxRetries →
        1 ≤ (fetchJsonWithRetry out r).1
        ∧ (fetchJsonWithRetry out r).1 ≤ r + 1
        ∧ (fetchJsonWithRetry out r).2.1
            = (List.range ((fetchJsonWithRetry out r).1 - 1)).map
                (fun i => 250 * 2 ^ i)
        ∧ (∀ i, i + 1 < (fetchJsonWithRetry out r).1 → retryTrigger (out i) = true)
        ∧ ((fetchJsonWithRetry out r).1 < r + 1 →
            retryTrigger (out ((fetchJsonWithRetry out r).1 - 1)) = false) := by
  refine ⟨rfl, rfl, rfl, rfl, rfl, ?_, ?_⟩
  · intro o
    cases o with
    | resp s => simp [retryTrigger]
    | transportErr => simp [retryTrigger]
  · intro out r _
    have h := fetchGo_spec out r 0
    simp only [fetchJsonWithRetry]
    simpa using h

/-- C8 witness: the amended theorem applied to the Spamhaus lookup budget
under a persistent 503, alongside the concrete trace. -/
theorem fetch_retry_schedule_witness :
    (fetchJsonWithRetry (fun _ => .resp 503) spamhausLookupRetries).1 = 2
    ∧ (fetchJsonWithRetry (fun _ => .resp 503) spamhausLookupRetries).2.1 = [250]
    ∧ (fetchJsonWithRetry (fun _ => .resp 503) spamhausLookupRetries).1
        ≤ spamhausLookupRetries + 1 :=
  ⟨by decide, by decide,
   (fetch_retry_schedule.2.2.2.2.2.2 (fun _ => .resp 503) spamhausLookupRetries
     (Or.inl rfl)).2.1⟩

/-! ## Claim C9 -/

theorem lifecycleStep_no_columns (meta : TableMeta) (c : Criteria) (st : WhereState) :
    lifecycleStep meta none none none none none c st = st := by
  unfold lifecycleStep
  rcases hn : normalizeString (match c.lifecycleState with
    | some v => some v
    | none => c.expiredState) with _ | lraw
  · rfl
  · dsimp only
    split
    · rfl
    · split
      · rfl
      · split <;> rfl

theorem stepCreationFrom_no_column (c : Criteria) (st : WhereState) :
    stepCreationFrom none c st = st := by
  rcases h : normalizeString c.creationDateFrom with _ | v <;>
    simp [stepCreationFrom, h]

theorem stepCreationTo_no_column (c : Criteria) (st : WhereState) :
    stepCreationTo none c st = st := by
  rcases h : normalizeString c.creationDateTo with _ | v <;>
    simp [stepCreationTo, h]

theorem stepAge_no_column (jsN : String → JsNum) (c : Criteria) (st : WhereState) :
    stepAge jsN none c st = st := rfl

theorem stepExpirationFrom_no_column (c : Criteria) (st : WhereState) :
    stepExpirationFrom none c st = st := by
  rcases h : normalizeString c.expirationFrom with _ | v <;>
    simp [stepExpirationFrom, h]

theorem stepExpirationTo_no_column (c : Criteria) (st : WhereState) :
    stepExpirationTo none c st = st := by
  rcases h : normalizeString c.expirationTo with _ | v <;>
    simp [stepExpirationTo, h]

theorem stepCountry_no_column (meta : TableMeta) (c : Criteria) (st : WhereState)
    (hc : hasCol meta "country_by_ip" = false) :
    stepCountry meta c st = st := by
  rcases h : normalizeString c.countryByIp with _ | v <;> simp [stepCountry, h, hc]

theorem stepRegistrar_no_column (meta : TableMeta) (c : Criteria) (st : WhereState)
    (hc : hasCol meta "registrar" = false) :
    stepRegistrar meta c st = st := by
  rcases h : normalizeString c.registrarContains with _ | v <;>
    simp [stepRegistrar, h, hc]

theorem stepTechnologies_no_column (meta : TableMeta) (c : Criteria) (st : WhereState)
    (hc : hasCol meta "technologies" = false) :
    stepTechnologies meta c st = st := by
  rcases h : normalizeString c.technologiesContains with _ | v <;>
    simp [stepTechnologies, h, hc]

theorem stepResponseStatus_no_column (meta : TableMeta) (c : Criteria)
    (st : WhereState) (hc : hasCol meta "response_status" = false) :
    stepResponseStatus meta c st = st := by
  rcases h : normalizeString c.responseStatusContains with _ | v <;>
    simp [stepResponseStatus, h, hc]

theorem stepDetectedMin_no_column (jsN : String → JsNum) (meta : TableMeta)
    (c : Criteria) (st : WhereState) (hc : hasCol meta "detected_hosts" = false) :
    stepDetectedMin jsN meta c st = st := by
  rcases h : normalizeString c.detectedHostsMin with _ | v <;>
    simp [stepDetectedMin, h, hc]

theorem stepDetectedMax_no_column (jsN : String → JsNum) (meta : TableMeta)
    (c : Criteria) (st : WhereState) (hc : hasCol meta "detected_hosts" = false) :
    stepDetectedMax jsN meta c st = st := by
  rcases h : normalizeString c.detectedHostsMax with _ | v <;>
    simp [stepDetectedMax, h, hc]

theorem stepWayback_no_column (jsN : String → JsNum) (c : Criteria) (st : WhereState) :
    stepWayback jsN none c st = st := by
  rcases h : normalizeString c.waybackMinSnapshots with _ | v <;>
    simp [stepWayback, h]

theorem stepSafeSpamhaus_no_column (meta : TableMeta) (c : Criteria) (st : WhereState) :
    stepSafeSpamhaus meta none c st = st := by
  rcases hb : c.safeSpamhausOnly with _ | _ <;> simp [stepSafeSpamhaus, hb]

theorem stepSafeViewsTotal_no_column (meta : TableMeta) (c : Criteria)
    (st : WhereState) :
    stepSafeViewsTotal meta none c st = st := by
  rcases hb : c.safeViewsTotalOnly with _ | _ <;> simp [stepSafeViewsTotal, hb]

/-- C9 counterexample: against an empty catalog (the shape a failed
catalog load degrades to), every search request fails with the
missing-domain-column error — a missing catalog column IS fatal here,
so missing columns are not universally non-fatal. -/
theorem missing_domain_column_fatal_cex :
    searchCompile jsNumberNan metaEmpty {}
      = .error "No domain column found in table public.expired_domains"
    ∧ domainColumnOf metaEmpty = none := by
  constructor
  · rfl
  · rfl

/-- C9 (amended): once a domain column resolves, compilation always
succeeds, and every criterion whose own source column is absent is
dropped silently — its compile step leaves the fragment/parameter
state untouched — for the creation-date criteria, the age criteria,
the expiration-date criteria, the exact-name criteria
(country/registrar/technologies/response-status/detected-hosts), the
wayback criterion, the two safety filters, and the whole lifecycle
block when no lifecycle-related column exists.  Only a missing domain
column fails the request. -/
theorem missing_columns_degrade_silently (jsN : String → JsNum) (meta : TableMeta)
    (c : Criteria) (st : WhereState) :
    (∀ d, domainColumnOf meta = some d →
      searchCompile jsN meta c = .ok (buildWhere jsN meta d c))
    ∧ (domainColumnOf meta = none →
        searchCompile jsN meta c
          = .error ("No domain column found in table " ++ meta.schemaName ++ "."
              ++ meta.tableName))
    ∧ stepCreationFrom none c st = st
    ∧ stepCreationTo none c st = st
    ∧ stepAge jsN none c st = st
    ∧ stepExpirationFrom none c st = st
    ∧ stepExpirationTo none c st = st
    ∧ (hasCol meta "country_by_ip" = false → stepCountry meta c st = st)
    ∧ (hasCol meta "registrar" = false → stepRegistrar meta c st = st)
    ∧ (hasCol meta "technologies" = false → stepTechnologies meta c st = st)
    ∧ (hasCol meta "response_status" = false → stepResponseStatus meta c st = st)
    ∧ (hasCol meta "detected_hosts" = false →
        stepDetectedMin jsN meta c st = st ∧ stepDetectedMax jsN meta c st = st)
    ∧ stepWayback jsN none c st = st
    ∧ stepSafeSpamhaus meta none c st = st
    ∧ stepSafeViewsTotal meta none c st = st
    ∧ lifecycleStep meta none none none none none c st = st := by
  refine ⟨?_, ?_, stepCreationFrom_no_column c st, stepCreationTo_no_column c st,
    stepAge_no_column jsN c st, stepExpirationFrom_no_column c st,
    stepExpirationTo_no_column c st, stepCountry_no_column meta c st,
    stepRegistrar_no_column meta c st, stepTechnologies_no_column meta c st,
    stepResponseStatus_no_column meta c st,
    fun hc => ⟨stepDetectedMin_no_column jsN meta c st hc,
      stepDetectedMax_no_column jsN meta c st hc⟩,
    stepWayback_no_column jsN c st, stepSafeSpamhaus_no_column meta c st,
    stepSafeViewsTotal_no_column meta c st, lifecycleStep_no_columns meta c st⟩
  · intro d hd
    unfold searchCompile
    rw [hd]
  · intro hd
    unfold searchCompile
    rw [hd]

/-- C9 witness: against the domain-only catalog, a fully loaded criteria
object still compiles successfully, with every column-dependent step
the identity. -/
theorem missing_columns_degrade_silently_witness :
    searchCompile jsNumberNan metaDomainOnly
        { creationDateFrom := some "2020-01-01", registrarContains := some "go",
          detectedHostsMin := some "3", safeSpamhausOnly := true }
      = .ok (buildWhere jsNumberNan metaDomainOnly "domain"
          { creationDateFrom := some "2020-01-01", registrarContains := some "go",
            detectedHostsMin := some "3", safeSpamhausOnly := true })
    ∧ stepCountry metaDomainOnly
        { creationDateFrom := some "2020-01-01", registrarContains := some "go",
          detectedHostsMin := some "3", safeSpamhausOnly := true } {} = {} :=
  ⟨(missing_columns_degrade_silently jsNumberNan metaDomainOnly
      { creationDateFrom := some "2020-01-01", registrarContains := some "go",
        detectedHostsMin := some "3", safeSpamhausOnly := true } {}).1 "domain"
      (by decide),
   (missing_columns_degrade_silently jsNumberNan metaDomainOnly
      { creationDateFrom := some "2020-01-01", registrarContains := some "go",
        detectedHostsMin := some "3", safeSpamhausOnly := true } {}).2.2.2.2.2.2.2.1
      (by decide)⟩

/-! ## Claim C10 -/

/-- C10 counterexample: a CDX response of 10000 rows (header plus 9999
snapshot rows) is displayed as `10000+` although its snapshot count
9999 is smaller than 10000 — the cap fires at `count ≥ 9999`, so not
every smaller-than-10000 count is reported numerically. -/
theorem cdx_cap_fires_at_9999_cex :
    cdxSnapshots (some (true, some (List.replicate 10000 ([] : List String))))
      = .capped
    ∧ (List.replicate 10000 ([] : List String)).length - 1 = 9999
    ∧ 9999 < 10000
    ∧ SnapCount.capped ≠ .count 9999 := by
  have hcap : ∀ (l : List (List String)), l.length = 10000 →
      cdxSnapshots (some (true, some l)) = .capped := by
    intro l hl
    simp [cdxSnapshots, hl]
  refine ⟨hcap _ (List.length_replicate _ _), ?_, by norm_num, by simp⟩
  rw [List.length_replicate]

/-- C10 (amended): for an ok JSON-array CDX response with the header as
first row, the snapshot count is the row count minus 1; it is displayed
numerically for counts up to 9998 and as the `10000+` cap for counts of
9999 or more; a thrown fetch, a non-ok response, or a non-array body
yields no count. -/
theorem cdx_count_parsing (rows : List (List String)) (h : rows ≠ []) :
    cdxSnapshots (some (true, some rows))
      = (if 9999 ≤ rows.length - 1 then .capped else .count (rows.length - 1))
    ∧ (rows.length - 1 < 9999 →
        cdxSnapshots (some (true, some rows)) = .count (rows.length - 1))
    ∧ cdxSnapshots none = .noCount
    ∧ cdxSnapshots (some (false, some rows)) = .noCount
    ∧ cdxSnapshots (some (true, none)) = .noCount := by
  have hlen : 0 < rows.length := List.length_pos.mpr h
  refine ⟨?_, ?_, rfl, rfl, rfl⟩
  · simp [cdxSnapshots, hlen]
  · intro hsmall
    simp [cdxSnapshots, hlen]
    omega

/-- C10 witness: a three-row response (header plus two snapshots) reports
the numeric count 2. -/
theorem cdx_count_parsing_witness :
    cdxSnapshots (some (true, some [["timestamp"], ["20200101"], ["20210101"]]))
      = .count 2 :=
  (cdx_count_parsing [["timestamp"], ["20200101"], ["20210101"]]
    (by decide)).2.1 (by decide)

end DomainHunter
